import Mathlib

set_option maxHeartbeats 1000000
set_option maxRecDepth 8000

/- ════════════════════════════════════════════════════════════════════
   Part 1: shallow embedding of merge_comments.py (merge_comments)

   Input files are modelled as `Option JValue`: `none` stands for a file
   on which `json.load` raised (invalid JSON), `some v` for the parsed
   document.  Python raising inside the per-file `try` block is modelled
   by explicit failure propagation that keeps the partial appends already
   performed on the shared accumulator, exactly as the source does.
   The `merged_at` timestamp field (wall clock) is not modelled.
   ════════════════════════════════════════════════════════════════════ -/

/-- JSON values as loaded by Python's json module.  Numbers are modelled
    as integers (no float appears in any claim).  Python `None` and JSON
    `null` are the same runtime value, modelled by `JValue.null`. -/
inductive JValue where
  | null : JValue
  | bool : Bool → JValue
  | num : Int → JValue
  | str : String → JValue
  | arr : List JValue → JValue
  | obj : List (String × JValue) → JValue

/-- Python `d.get(key, default)` on a dict whose fields are `fields`. -/
def lookupD (fields : List (String × JValue)) (key : String) (dflt : JValue) : JValue :=
  match fields.lookup key with
  | some v => v
  | none => dflt

/-- Python `len(v)`: defined for lists, strings and dicts, raises
    (returns `none` here) on other values. -/
def pyLen : JValue → Option Nat
  | .arr elems => some elems.length
  | .str s => some s.length
  | .obj fields => some fields.length
  | _ => none

/-- Python iteration `for x in v`: lists yield their elements, strings
    yield one-character strings, dicts yield their keys; other values
    raise (modelled by `none`). -/
def pyIter : JValue → Option (List JValue)
  | .arr elems => some elems
  | .str s => some (s.data.map fun c => JValue.str (String.mk [c]))
  | .obj fields => some (fields.map fun kv => JValue.str kv.1)
  | _ => none

/-- One entry of `merged_data["videos"]` (merge_comments.py lines 58-68). -/
structure VideoEntry where
  video_id : JValue
  title : JValue
  channel_title : JValue
  published_at : JValue
  view_count : JValue
  like_count : JValue
  comment_count : JValue
  crawled_comments_count : JValue
  crawled_at : JValue

/-- One flat record of `merged_data["all_comments"]`
    (merge_comments.py lines 76-89 and 95-108).  `parent_id` uses
    `JValue.null` for Python `None`. -/
structure FlatComment where
  comment_id : JValue
  video_id : JValue
  video_title : JValue
  author_name : JValue
  author_channel_id : JValue
  text : JValue
  like_count : JValue
  published_at : JValue
  updated_at : JValue
  reply_count : JValue
  is_reply : Bool
  parent_id : JValue

/-- The video entry built at merge_comments.py lines 58-68; `none` when
    `video_info` is not a dict, so the `.get` calls raise. -/
def mkVideoEntry (video_info : JValue) (comments_count : JValue)
    (data_fields : List (String × JValue)) : Option VideoEntry :=
  match video_info with
  | .obj vf => some
      { video_id := lookupD vf "video_id" (.str "")
        title := lookupD vf "title" (.str "")
        channel_title := lookupD vf "channel_title" (.str "")
        published_at := lookupD vf "published_at" (.str "")
        view_count := lookupD vf "view_count" (.str "0")
        like_count := lookupD vf "like_count" (.str "0")
        comment_count := lookupD vf "comment_count" (.str "0")
        crawled_comments_count := comments_count
        crawled_at := lookupD data_fields "crawled_at" (.str "") }
  | _ => none

/-- The `main_comment` dict of merge_comments.py lines 76-89, for a
    comment that is a dict with fields `cf`. -/
def mkMainComment (cf : List (String × JValue)) (video_id video_title : JValue) : FlatComment :=
  { comment_id := lookupD cf "comment_id" (.str "")
    video_id := video_id
    video_title := video_title
    author_name := lookupD cf "author_name" (.str "")
    author_channel_id := lookupD cf "author_channel_id" (.str "")
    text := lookupD cf "text" (.str "")
    like_count := lookupD cf "like_count" (.num 0)
    published_at := lookupD cf "published_at" (.str "")
    updated_at := lookupD cf "updated_at" (.str "")
    reply_count := lookupD cf "reply_count" (.num 0)
    is_reply := false
    parent_id := .null }

/-- The `reply_comment` dict of merge_comments.py lines 95-108, for a
    reply that is a dict with fields `rf`. -/
def mkReplyComment (rf : List (String × JValue)) (video_id video_title : JValue) : FlatComment :=
  { comment_id := lookupD rf "comment_id" (.str "")
    video_id := video_id
    video_title := video_title
    author_name := lookupD rf "author_name" (.str "")
    author_channel_id := lookupD rf "author_channel_id" (.str "")
    text := lookupD rf "text" (.str "")
    like_count := lookupD rf "like_count" (.num 0)
    published_at := lookupD rf "published_at" (.str "")
    updated_at := lookupD rf "updated_at" (.str "")
    reply_count := .num 0
    is_reply := true
    parent_id := lookupD rf "parent_id" (.str "") }

/-- The inner loop of merge_comments.py lines 94-109: process the list of
    replies in order; a reply that is not a dict raises at
    `reply.get(...)`, keeping the records appended so far (second
    component `false` = an exception escaped). -/
def processReplies (video_id video_title : JValue) : List JValue → List FlatComment × Bool
  | [] => ([], true)
  | .obj rf :: rest =>
      let r := processReplies video_id video_title rest
      (mkReplyComment rf video_id video_title :: r.1, r.2)
  | _ :: _ => ([], false)

/-- The loop of merge_comments.py lines 72-109: process the top-level
    comments in order.  For each dict comment the main record is appended
    first, then the records for its replies.  A non-dict comment raises
    at `comment.get(...)` before appending anything; a comment whose
    `replies` value is not iterable raises after the main record was
    appended.  Second component `false` = an exception escaped. -/
def processComments (vif : List (String × JValue)) : List JValue → List FlatComment × Bool
  | [] => ([], true)
  | .obj cf :: rest =>
      let video_id := lookupD vif "video_id" (.str "")
      let video_title := lookupD vif "title" (.str "")
      let main := mkMainComment cf video_id video_title
      match pyIter (lookupD cf "replies" (.arr [])) with
      | none => ([main], false)
      | some rlist =>
          let r := processReplies video_id video_title rlist
          if r.2 then
            let t := processComments vif rest
            (main :: r.1 ++ t.1, t.2)
          else (main :: r.1, false)
  | _ :: _ => ([], false)

/-- What one parsed input file contributes to the shared accumulator:
    the video entries and flat comment records appended while processing
    it, and the increments applied to `total_videos` / `total_comments`
    (merge_comments.py lines 111-112, applied only when no exception
    escaped).  `ok` records whether the whole per-file block ran without
    raising. -/
structure FileResult where
  videos : List VideoEntry
  comments : List FlatComment
  d_videos : Nat
  d_comments : Nat
  ok : Bool

def emptyFileResult : FileResult := ⟨[], [], 0, 0, false⟩

/-- The per-file body of merge_comments.py lines 49-112 (inside `try`).
    Failure points, in source order: `data.get` raises when `data` is
    not a dict (line 53); `len(comments)` raises when `comments` is not
    sized (line 55, the default argument is evaluated eagerly);
    `video_info.get` raises when `video_info` is not a dict (lines
    58-67); `for comment in comments` raises when `comments` is not
    iterable (line 72); later failures keep the partial appends. -/
def processFile (data : JValue) : FileResult :=
  match data with
  | .obj df =>
      let video_info := lookupD df "video_info" (.obj [])
      let comments := lookupD df "comments" (.arr [])
      match pyLen comments with
      | none => emptyFileResult
      | some n =>
          let comments_count := lookupD df "comments_count" (.num (Int.ofNat n))
          match mkVideoEntry video_info comments_count df with
          | none => emptyFileResult
          | some ventry =>
              match video_info, pyIter comments with
              | .obj vif, some clist =>
                  let r := processComments vif clist
                  if r.2 then ⟨[ventry], r.1, 1, n, true⟩
                  else ⟨[ventry], r.1, 0, 0, false⟩
              | _, _ => ⟨[ventry], [], 0, 0, false⟩
  | _ => emptyFileResult

/-- Contribution of one input file: a file whose `json.load` raised
    (`none`) contributes nothing (merge_comments.py lines 117-119). -/
def fileContrib : Option JValue → FileResult
  | none => emptyFileResult
  | some data => processFile data

/-- The accumulator `merged_data` (without the `merged_at` timestamp). -/
structure MergedData where
  total_videos : Nat
  total_comments : Nat
  videos : List VideoEntry
  all_comments : List FlatComment

def emptyMerged : MergedData := ⟨0, 0, [], []⟩

/-- One iteration of the `for idx, file_path in enumerate(comment_files)`
    loop of merge_comments.py lines 46-119. -/
def mergeStep (md : MergedData) (file : Option JValue) : MergedData :=
  let r := fileContrib file
  { total_videos := md.total_videos + r.d_videos
    total_comments := md.total_comments + r.d_comments
    videos := md.videos ++ r.videos
    all_comments := md.all_comments ++ r.comments }

/-- merge_comments.py `merge_comments`: the written `merged_data` as a
    function of the (sorted) list of input files, each given as its
    `json.load` outcome. -/
def merge_comments (files : List (Option JValue)) : MergedData :=
  files.foldl mergeStep emptyMerged

/- ════════════════════════════════════════════════════════════════════
   Part 2: shallow embedding of youtube_comments_crawler.py
   `YouTubeCommentsCrawler.get_comments` (lines 114-213)

   The HTTP provider is abstracted as a function from the page token
   sent (`params["pageToken"]`, absent on the first request) and the
   requested page size (`params["maxResults"]`) to either an exception
   (`Except.error` carrying a `FetchError`, dispatched to the except
   handlers of lines 196-210) or a response carrying the parsed
   `items` list and the optional `nextPageToken`.  Page tokens are
   opaque naturals.  The response items carry exactly the fields the
   source reads; fields accessed via `.get(...)` with a default are
   `Option`s.

   The except handlers are modelled faithfully, including their own
   failure path: the 403 branch re-parses the response body with
   `e.response.json()` (line 198) and chains `.get` calls on it (line
   199); a body that is not JSON, not a dict, or whose `"error"` value
   is not a dict makes the handler itself raise
   (JSONDecodeError/AttributeError), and an exception raised inside an
   `except` clause is not caught by the sibling handler, so it
   propagates out of `get_comments`.  Accordingly the run result is an
   `Except Unit FetchResult`: `.error ()` stands for an escaping
   exception (the accumulated records are lost).

   The `while` loop is modelled with an explicit fuel parameter (a
   provider that keeps returning empty pages with tokens makes the
   Python loop run forever); every theorem below supplies enough fuel
   for the run it describes, so the fuel bound is never reached.
   The loop state carries, besides `all_comments`, `next_page_token`
   and `total_fetched` from the source, a count of provider requests
   issued, used to state the pagination claims.
   ════════════════════════════════════════════════════════════════════ -/

/-- A reply inside `item["replies"]["comments"]` with the fields read at
    lines 173-184. -/
structure ReplyItem where
  id : String
  authorDisplayName : String
  authorChannelId : Option String
  textDisplay : String
  likeCount : Option Int
  publishedAt : String
  updatedAt : Option String
  parentId : Option String

/-- One element of `data["items"]` with the fields read at lines
    156-184.  `replies = none` models an item without a `"replies"` key
    (line 172). -/
structure CommentThreadItem where
  topLevelCommentId : String
  authorDisplayName : String
  authorChannelId : Option String
  textDisplay : String
  likeCount : Option Int
  publishedAt : String
  updatedAt : Option String
  totalReplyCount : Option Int
  replies : Option (List ReplyItem)

/-- A reply record appended at lines 175-184. -/
structure ReplyData where
  comment_id : String
  author_name : String
  author_channel_id : String
  text : String
  like_count : Int
  published_at : String
  updated_at : String
  parent_id : String

/-- A `comment_data` record built at lines 159-186. -/
structure CommentData where
  comment_id : String
  author_name : String
  author_channel_id : String
  text : String
  like_count : Int
  published_at : String
  updated_at : String
  reply_count : Int
  replies : List ReplyData

def mapReplyItem (r : ReplyItem) : ReplyData :=
  { comment_id := r.id
    author_name := r.authorDisplayName
    author_channel_id := r.authorChannelId.getD ""
    text := r.textDisplay
    like_count := r.likeCount.getD 0
    published_at := r.publishedAt
    updated_at := r.updatedAt.getD ""
    parent_id := r.parentId.getD "" }

/-- Lines 156-186: map one `items` element to the `comment_data` dict,
    with its inline replies (if any) mapped in their listed order. -/
def mapCommentItem (it : CommentThreadItem) : CommentData :=
  { comment_id := it.topLevelCommentId
    author_name := it.authorDisplayName
    author_channel_id := it.authorChannelId.getD ""
    text := it.textDisplay
    like_count := it.likeCount.getD 0
    published_at := it.publishedAt
    updated_at := it.updatedAt.getD ""
    reply_count := it.totalReplyCount.getD 0
    replies := (it.replies.getD []).map mapReplyItem }

/-- A provider response: parsed `data.get("items", [])` and
    `data.get("nextPageToken")`. -/
structure PageResponse where
  items : List CommentThreadItem
  nextPageToken : Option Nat

/-- The exception that ends a page request: `httpx.HTTPStatusError`
    (raised by `response.raise_for_status()` at line 151) carrying
    the response's status code and the outcome of parsing its body as
    JSON (`none` when `e.response.json()` would raise), or any other
    exception (transport errors, timeouts, a non-JSON success body at
    line 152, ...). -/
inductive FetchError where
  | httpStatus (status_code : Nat) (body : Option JValue)
  | other

/-- The except handlers of lines 196-210.  Returns `true` when the
    handler completes and the loop breaks.  For a 403 the handler
    itself evaluates `e.response.json()` (line 198) and
    `error_data.get("error", {}).get("message", ...)` (line 199): a
    body that is not JSON, not a dict, or whose `"error"` value is not
    a dict makes the handler raise, and that exception is not caught by
    the sibling `except Exception` handler — it escapes `get_comments`
    (`false`).  Non-403 HTTP errors and all other exceptions print and
    break. -/
def handleFetchError : FetchError → Bool
  | .httpStatus status_code body =>
      if status_code == 403 then
        match body with
        | some (.obj fields) =>
            match lookupD fields "error" (.obj []) with
            | .obj _ => true
            | _ => false
        | _ => false
      else true
  | .other => true

/-- The abstracted comment-threads endpoint; arguments are the page
    token sent and the requested `maxResults`. -/
def Provider := Option Nat → Nat → Except FetchError PageResponse

/-- Result of a completed `get_comments` run: the returned
    `all_comments`, the number of provider requests issued, and the
    final `total_fetched` counter. -/
structure FetchResult where
  all_comments : List CommentData
  requests : Nat
  total_fetched : Nat

/-- The `while total_fetched < max_results` loop of lines 133-210.
    Each iteration requests `min(100, max_results - total_fetched)`
    items (line 135); on an exception the handlers of lines 196-210
    run — when they complete the loop breaks keeping the accumulated
    records, and when the 403 branch itself raises the exception
    escapes (`.error ()`, records lost); otherwise all items of the
    page are appended and counted (lines 156-187, with no truncation
    at the cap), then the loop breaks if the token is absent
    (190-192). -/
def getCommentsGo (provider : Provider) (max_results : Nat) :
    Nat → List CommentData → Option Nat → Nat → Nat → Except Unit FetchResult
  | fuel, acc, next_page_token, total_fetched, requests =>
    if total_fetched < max_results then
      match fuel with
      | 0 => .ok ⟨acc, requests, total_fetched⟩
      | fuel + 1 =>
          let current_max := min 100 (max_results - total_fetched)
          match provider next_page_token current_max with
          | .error e =>
              if handleFetchError e then .ok ⟨acc, requests + 1, total_fetched⟩
              else .error ()
          | .ok page =>
              let acc := acc ++ page.items.map mapCommentItem
              let total_fetched := total_fetched + page.items.length
              match page.nextPageToken with
              | none => .ok ⟨acc, requests + 1, total_fetched⟩
              | some t =>
                  getCommentsGo provider max_results fuel acc (some t) total_fetched
                    (requests + 1)
    else .ok ⟨acc, requests, total_fetched⟩

/-- `get_comments(video_id, max_results, order)`: starts with an empty
    accumulator, no page token and `total_fetched = 0` (lines 127-129);
    `video_id` and `order` are only forwarded to the provider and are
    absorbed into the `provider` argument. -/
def get_comments (provider : Provider) (max_results : Nat) (fuel : Nat) :
    Except Unit FetchResult :=
  getCommentsGo provider max_results fuel [] none 0 0

/- ════════════════════════════════════════════════════════════════════
   Part 3: shallow embedding of youtube_comments_crawler.py
   `extract_video_id` (lines 27-59)

   The two `re.search` calls use patterns of the shape
   `literal([a-zA-Z0-9_-]+)` (the second with an alternation of two
   literals); they are modelled by a left-to-right scan that, at the
   first position where the literal matches and is followed by at least
   one id character, returns the greedy capture.  The
   `urllib.parse.urlparse` fallback is modelled after CPython's
   urlsplit/urlparse for the fields the source reads.
   ════════════════════════════════════════════════════════════════════ -/

/-- The character class `[a-zA-Z0-9_-]` of the video-id regexes. -/
def video_id_char (c : Char) : Bool :=
  c.isAlpha || c.isDigit || c == '_' || c == '-'

/-- Match a literal pattern at the head of the subject; on success
    return the remainder of the subject. -/
def matchLit : List Char → List Char → Option (List Char)
  | [], rest => some rest
  | _ :: _, [] => none
  | p :: ps, c :: cs => if c = p then matchLit ps cs else none

/-- `re.search(lit + "([a-zA-Z0-9_-]+)", s)`: scan left to right for the
    first position where the literal matches and is followed by at least
    one id character; return the greedy capture. -/
def reSearchCap (pat : List Char) : List Char → Option (List Char)
  | [] => none
  | c :: cs =>
    match matchLit pat (c :: cs) with
    | some rest =>
        let cap := rest.takeWhile video_id_char
        if cap.isEmpty then reSearchCap pat cs else some cap
    | none => reSearchCap pat cs

/-- `re.search("(?:lit1|lit2)([a-zA-Z0-9_-]+)", s)`: at each position
    the first alternative is tried before the second. -/
def reSearchAlt (p1 p2 : List Char) : List Char → Option (List Char)
  | [] => none
  | c :: cs =>
    let first :=
      match matchLit p1 (c :: cs) with
      | some rest =>
          let cap := rest.takeWhile video_id_char
          if cap.isEmpty then none else some cap
      | none => none
    match first with
    | some cap => some cap
    | none =>
      match matchLit p2 (c :: cs) with
      | some rest =>
          let cap := rest.takeWhile video_id_char
          if cap.isEmpty then reSearchAlt p1 p2 cs else some cap
      | none => reSearchAlt p1 p2 cs

def patShort : List Char := "youtu.be/".data

def patWatch : List Char := "youtube.com/watch?v=".data

def patEmbed : List Char := "youtube.com/embed/".data

/-- Characters allowed after the first character of a URL scheme
    (urllib's `scheme_chars`). -/
def schemeChar (c : Char) : Bool :=
  c.isAlpha || c.isDigit || c == '+' || c == '-' || c == '.'

/-- urlsplit first strips leading WHATWG C0-control-or-space
    characters (code points 0x00-0x20) from the URL; trailing ones are
    deliberately preserved (CPython 3.11, `url.lstrip(...)`). -/
def lstripControl (u : List Char) : List Char :=
  u.dropWhile fun c => c ≤ ' '

/-- urlsplit then removes tab, CR and LF anywhere in the URL. -/
def removeUnsafe (u : List Char) : List Char :=
  u.filter fun c => !(c == '\t' || c == '\r' || c == '\n')

/-- Split a list at the first occurrence of `ch` (the separator is
    dropped); `none` when `ch` does not occur. -/
def breakAt (ch : Char) : List Char → Option (List Char × List Char)
  | [] => none
  | x :: xs =>
    if x = ch then some ([], xs)
    else
      match breakAt ch xs with
      | some (a, b) => some (x :: a, b)
      | none => none

/-- urlsplit's scheme recognition: a colon at a positive position, an
    ASCII letter first and only scheme characters before it; returns
    the lowercased scheme and the remainder after the colon
    (`([], url)` when no scheme is recognised). -/
def splitScheme (u : List Char) : List Char × List Char :=
  match breakAt ':' u with
  | some (pre, post) =>
      match pre with
      | [] => ([], u)
      | c0 :: _ =>
          if c0.isAlpha && pre.all schemeChar then (pre.map Char.toLower, post)
          else ([], u)
  | none => ([], u)

/-- urlparse's `uses_params`: the schemes for which `;params` is split
    off the last path segment. -/
def uses_params : List (List Char) :=
  ["".data, "ftp".data, "hdl".data, "prospero".data, "http".data, "imap".data,
   "https".data, "shttp".data, "rtsp".data, "rtspu".data, "sip".data, "sips".data,
   "mms".data, "sftp".data, "tel".data]

/-- urlparse `_splitparams`: when the path contains `;`, the parameters
    of the last segment are dropped. -/
def splitParamsPath (p : List Char) : List Char :=
  if p.contains ';' then
    if p.contains '/' then
      let lastSeg := (p.reverse.takeWhile (fun c => !(c == '/'))).reverse
      if lastSeg.contains ';' then
        p.take (p.length - lastSeg.length) ++ lastSeg.takeWhile (fun c => !(c == ';'))
      else p
    else p.takeWhile (fun c => !(c == ';'))
  else p

def isHexChar (c : Char) : Bool :=
  c.isDigit || ('a' ≤ c && c ≤ 'f') || ('A' ≤ c && c ≤ 'F')

def hexVal (c : Char) : Nat :=
  if c.isDigit then c.toNat - 48
  else if 'a' ≤ c && c ≤ 'f' then c.toNat - 87
  else c.toNat - 55

/-- Split a list on every occurrence of `sep` (Python `str.split`). -/
def splitOnChar (sep : Char) : List Char → List (List Char)
  | [] => [[]]
  | c :: rest =>
      if c = sep then [] :: splitOnChar sep rest
      else
        match splitOnChar sep rest with
        | h :: t => (c :: h) :: t
        | [] => [[c]]

def digitsVal (s : List Char) : Nat :=
  s.foldl (fun a c => a * 10 + (c.toNat - 48)) 0

/-- `ipaddress.IPv4Address._parse_octet`: 1-3 decimal digits, no
    leading zero (unless the octet is exactly "0"), value at most
    255. -/
def validOctet (s : List Char) : Bool :=
  match s with
  | [] => false
  | c :: cs =>
      s.all (·.isDigit) && s.length ≤ 3 && (cs.isEmpty || !(c == '0')) &&
        digitsVal s ≤ 255

/-- A valid dotted-quad IPv4 literal (`ipaddress.IPv4Address`). -/
def isValidIPv4 (s : List Char) : Bool :=
  let parts := splitOnChar '.' s
  parts.length == 4 && parts.all validOctet

/-- `ipaddress.IPv6Address._parse_hextet`: 1-4 hex digits. -/
def validHextet (s : List Char) : Bool :=
  !s.isEmpty && s.length ≤ 4 && s.all isHexChar

/-- The colon-group validation of
    `ipaddress.IPv6Address._ip_int_from_string`, after a dotted-quad
    suffix (if any) has been replaced by two dummy hextets: at most 9
    groups; at most one empty interior group (the `::`); an empty
    first/last group only as part of a leading/trailing `::`; without
    `::` exactly 8 groups with non-empty ends; with `::` at least one
    group elided; all retained groups valid hextets. -/
def ipv6PartsValid (parts : List (List Char)) : Bool :=
  if parts.length > 9 then false
  else
    let n := parts.length
    let emptyIdx := (List.range n).filter fun i =>
      decide (1 ≤ i) && decide (i + 1 < n) && (parts.getD i []).isEmpty
    match emptyIdx with
    | [] =>
        n == 8 && !((parts.getD 0 []).isEmpty) && !((parts.getD (n - 1) []).isEmpty) &&
          parts.all validHextet
    | [skip] =>
        let firstEmpty := (parts.getD 0 []).isEmpty
        let lastEmpty := (parts.getD (n - 1) []).isEmpty
        let parts_hi := if firstEmpty then skip - 1 else skip
        let parts_lo := if lastEmpty then n - skip - 2 else n - skip - 1
        (!firstEmpty || skip == 1) && (!lastEmpty || n - skip - 1 == 1) &&
          decide (parts_hi + parts_lo < 8) &&
          (parts.take parts_hi).all validHextet &&
          (parts.drop (n - parts_lo)).all validHextet
    | _ => false

/-- A valid IPv6 literal (`ipaddress.IPv6Address`): an optional
    `%scope` suffix (non-empty, no further `%`), at least 3 colon
    groups, an optional dotted-quad last group standing for two
    hextets, and the group structure above. -/
def isValidIPv6 (s : List Char) : Bool :=
  let core := fun (addr : List Char) =>
    let parts0 := splitOnChar ':' addr
    if parts0.length < 3 then false
    else
      match parts0.getLast? with
      | none => false
      | some last =>
          if last.contains '.' then
            isValidIPv4 last && ipv6PartsValid (parts0.dropLast ++ [['0'], ['0']])
          else ipv6PartsValid parts0
  match breakAt '%' s with
  | some (addr, scope) => !scope.isEmpty && !(scope.contains '%') && core addr
  | none => core s

/-- `netloc.partition('[')[2].partition(']')[0]`: the text after the
    first `[` up to the next `]`. -/
def bracketedHost (netloc : List Char) : List Char :=
  let afterBracket :=
    match breakAt '[' netloc with
    | some (_, rest) => rest
    | none => []
  match breakAt ']' afterBracket with
  | some (h, _) => h
  | none => afterBracket

/-- urlsplit `_check_bracketed_host` (CPython 3.11): a host starting
    with `v` must match the IPvFuture shape `v` + hex digits + `.` +
    a non-empty remainder (no newline, per `.` in the regex); any
    other host must be a valid IPv6 literal (`ipaddress.ip_address`
    raises for anything else, and an IPv4 address in brackets is
    rejected explicitly). -/
def checkBracketedHost (host : List Char) : Bool :=
  match host with
  | 'v' :: rest =>
      let hexRun := rest.takeWhile isHexChar
      (!hexRun.isEmpty) &&
        (match rest.dropWhile isHexChar with
         | '.' :: more => !more.isEmpty && !(more.contains '\n')
         | _ => false)
  | _ => isValidIPv6 host

/-- The result fields of `urlparse` that the source reads. -/
structure UrlParts where
  netloc : List Char
  path : List Char
  query : List Char

/-- `urllib.parse.urlparse(url)` restricted to `netloc`, `path` and
    `query`, following CPython 3.11: strip leading C0-control/space
    characters, remove tab/CR/LF, recognise the scheme, cut the netloc
    after `//` at the first `/`, `?` or `#` and raise `ValueError`
    (modelled as `.error ()`) when its square brackets are unbalanced
    or when a bracketed host fails `_check_bracketed_host`; then drop
    the fragment after `#`, split the query after `?`, and — for a
    scheme in `uses_params` — split `;params` off the last path
    segment.  `_checknetloc`'s NFKC-normalization check, which can
    raise only for netlocs containing non-ASCII characters, is not
    modelled; the theorem below restricts its fallback coverage to
    ASCII netlocs accordingly. -/
def urlparseModel (u0 : List Char) : Except Unit UrlParts :=
  let u1 := removeUnsafe (lstripControl u0)
  let sp := splitScheme u1
  let scheme := sp.1
  let u2 := sp.2
  let hasNetloc :=
    match u2 with
    | '/' :: '/' :: _ => true
    | _ => false
  let netloc :=
    if hasNetloc then (u2.drop 2).takeWhile (fun c => !(c == '/' || c == '?' || c == '#'))
    else []
  let rest :=
    if hasNetloc then (u2.drop 2).dropWhile (fun c => !(c == '/' || c == '?' || c == '#'))
    else u2
  if (netloc.contains '[' && !(netloc.contains ']')) ||
      (netloc.contains ']' && !(netloc.contains '[')) then
    .error ()
  else if netloc.contains '[' && netloc.contains ']' &&
      !(checkBracketedHost (bracketedHost netloc)) then
    .error ()
  else
    let noFrag :=
      match breakAt '#' rest with
      | some (a, _) => a
      | none => rest
    let pathPart :=
      match breakAt '?' noFrag with
      | some (a, _) => a
      | none => noFrag
    let query :=
      match breakAt '?' noFrag with
      | some (_, b) => b
      | none => []
    let path :=
      if uses_params.contains scheme then splitParamsPath pathPart else pathPart
    .ok { netloc := netloc, path := path, query := query }

/-- `urllib.parse.unquote`, decoding `%XX` per character (multi-byte
    UTF-8 sequences are not recombined; no claim exercises them). -/
def unquoteChars : List Char → List Char
  | [] => []
  | '%' :: a :: b :: rest =>
      if isHexChar a && isHexChar b then
        Char.ofNat (16 * hexVal a + hexVal b) :: unquoteChars rest
      else '%' :: unquoteChars (a :: b :: rest)
  | c :: rest => c :: unquoteChars rest

/-- `urllib.parse.unquote_plus`: `+` becomes a space, then unquote. -/
def unquotePlus (l : List Char) : List Char :=
  unquoteChars (l.map fun c => if c = '+' then ' ' else c)

/-- Split a query string on `&` (parse_qsl's default separator). -/
def splitAmp : List Char → List (List Char)
  | [] => [[]]
  | '&' :: rest => [] :: splitAmp rest
  | c :: rest =>
      match splitAmp rest with
      | h :: t => (c :: h) :: t
      | [] => [[c]]

/-- `'v' in parse_qs(query)` / `parse_qs(query)['v'][0]`: the first
    non-blank value whose unquoted name is `v`; pairs with a blank value
    are dropped (`keep_blank_values=False`). -/
def parse_qs_v : List (List Char) → Option (List Char)
  | [] => none
  | pair :: rest =>
    if pair.isEmpty then parse_qs_v rest
    else
      let nv :=
        match breakAt '=' pair with
        | some (n, v) => (n, v)
        | none => (pair, [])
      if nv.2.isEmpty then parse_qs_v rest
      else if unquotePlus nv.1 = "v".data then some (unquotePlus nv.2)
      else parse_qs_v rest

/-- Python's substring test `sub in s`. -/
def containsSub (sub : List Char) : List Char → Bool
  | [] => sub.isEmpty
  | c :: cs => (matchLit sub (c :: cs)).isSome || containsSub sub cs

/-- youtube_comments_crawler.py lines 27-59 `extract_video_id`.
    `.error ()` models the uncaught `ValueError` raised by `urlparse`
    on an unbalanced bracket in the netloc. -/
def extract_video_id (url : String) : Except Unit (Option String) :=
  match reSearchCap patShort url.data with
  | some cap => .ok (some (String.mk cap))
  | none =>
    match reSearchAlt patWatch patEmbed url.data with
    | some cap => .ok (some (String.mk cap))
    | none =>
      match urlparseModel url.data with
      | .error e => .error e
      | .ok parts =>
          if containsSub "youtu.be".data parts.netloc then
            .ok (some (String.mk (parts.path.dropWhile (· == '/'))))
          else if containsSub "youtube.com".data parts.netloc then
            match parse_qs_v (splitAmp parts.query) with
            | some v => .ok (some (String.mk v))
            | none => .ok none
          else .ok none

/- ════════════════════════════════════════════════════════════════════
   Part 4: concrete inputs and mock providers used by the theorems
   ════════════════════════════════════════════════════════════════════ -/

def tokenStart : Option Nat → Nat
  | none => 0
  | some t => t

/-- A provider over an unbounded item stream that serves exactly the
    requested number of items per page, in stream order, always with a
    continuation token (encoding the next stream position). -/
def servingProvider (stream : Nat → CommentThreadItem) : Provider := fun tok req =>
  .ok ⟨(List.range req).map fun i => stream (tokenStart tok + i),
       some (tokenStart tok + req)⟩

/-- The page number a request is for: the first request (no token) is
    for page 1; afterwards the token carries the page number. -/
def pageOf : Option Nat → Nat
  | none => 1
  | some t => t

/-- A provider that serves page `p` (`pages p`, with a token to page
    `p + 1`) for `p < n` and raises `e` on the request for page `n`. -/
def failingProvider (pages : Nat → List CommentThreadItem) (n : Nat)
    (e : FetchError) : Provider :=
  fun tok _ =>
    let p := pageOf tok
    if p < n then .ok ⟨pages p, some (p + 1)⟩ else .error e

/-- A 403 whose JSON body is a dict with a dict `"error"` value: the
    handler of lines 197-204 completes and the loop breaks. -/
def wellFormed403 : FetchError :=
  .httpStatus 403 (some (.obj [("error", .obj [("message", .str "quotaExceeded")])]))

/-- A provider that serves `items1` with a continuation token on the
    first request and `items2` without one on the second. -/
def tokenEndProvider (items1 items2 : List CommentThreadItem) : Provider := fun tok _ =>
  match tok with
  | none => .ok ⟨items1, some 2⟩
  | some _ => .ok ⟨items2, none⟩

/-- The items of pages `p, p+1, ..., p+k-1` concatenated in page order
    then item order. -/
def pagesConcat (pages : Nat → List CommentThreadItem) (p k : Nat) : List CommentThreadItem :=
  ((List.range' p k).map pages).flatten

def sampleItem : CommentThreadItem :=
  ⟨"c", "a", none, "t", none, "p", none, none, none⟩

/-- A provider that serves one one-item page and answers the request
    for page 2 with a 403 whose body is not JSON, so that
    `e.response.json()` at line 198 raises out of `get_comments`. -/
def badBodyProvider : Provider := fun tok _ =>
  match tok with
  | none => .ok ⟨[sampleItem], some 2⟩
  | some _ => .error (.httpStatus 403 none)

/-- A provider answering every request with a fixed full page of 100
    items regardless of the requested page size: two pages are served
    (k = 2 pages of n = 100 items, the second without a token). -/
def fixedPageProvider : Provider := fun tok _ =>
  match tok with
  | none => .ok ⟨List.replicate 100 sampleItem, some 1⟩
  | some _ => .ok ⟨List.replicate 100 sampleItem, none⟩

def sampleReply : ReplyItem := ⟨"r", "a", none, "t", none, "p", none, some "c"⟩

/-- An item carrying three inline replies. -/
def repliedItem : CommentThreadItem :=
  ⟨"c", "a", none, "t", none, "p", none, some 3,
   some [sampleReply, sampleReply, sampleReply]⟩

/-- A provider serving a single page of two items with three inline
    replies each. -/
def replyRichProvider : Provider := fun _ _ =>
  .ok ⟨[repliedItem, repliedItem], none⟩

/-- `true` when a reply dict's `parent_id` value is not JSON null (a
    missing key defaults to the non-null empty string). -/
def replyParentNonNull (r : JValue) : Bool :=
  match r with
  | .obj rf =>
      match lookupD rf "parent_id" (.str "") with
      | .null => false
      | _ => true
  | _ => true

def commentRepliesNonNull (c : JValue) : Bool :=
  match c with
  | .obj cf =>
      match pyIter (lookupD cf "replies" (.arr [])) with
      | some rlist => rlist.all replyParentNonNull
      | none => true
  | _ => true

/-- No reply dict reachable in this input file carries an explicit JSON
    null `parent_id` value. -/
def fileParentsNonNull : Option JValue → Bool
  | none => true
  | some (.obj df) =>
      match pyIter (lookupD df "comments" (.arr [])) with
      | some clist => clist.all commentRepliesNonNull
      | none => true
  | some _ => true

/-- A fetch-output file as written by `save_comments`: a `video_info`
    dict and a list of comments. -/
def mkFetchFile (vid title : String) (comments : List JValue) : JValue :=
  .obj [("video_info", .obj [("video_id", .str vid), ("title", .str title)]),
        ("comments", .arr comments)]

/-- A top-level comment dict with the given id and reply list. -/
def mkCommentObj (cid : String) (replies : List JValue) : JValue :=
  .obj [("comment_id", .str cid), ("replies", .arr replies)]

/-- A reply dict with the given id and parent id. -/
def mkReplyObj (cid pid : String) : JValue :=
  .obj [("comment_id", .str cid), ("parent_id", .str pid)]

/-- A well-formed file with one top-level comment carrying one reply. -/
def replyFile : JValue :=
  mkFetchFile "v1" "T" [mkCommentObj "c1" [mkReplyObj "r1" "c1"]]

/-- A structurally malformed file: `comments` is a list containing a
    number, so `comment.get(...)` raises after the video entry has been
    appended. -/
def malformedFile : JValue :=
  .obj [("video_info", .obj [("video_id", .str "v1")]), ("comments", .arr [.num 3])]

/-- A file whose single reply dict carries an explicit JSON null
    `parent_id`. -/
def nullParentFile : JValue :=
  mkFetchFile "v1" "T"
    [.obj [("comment_id", .str "c1"), ("replies", .arr [.obj [("parent_id", JValue.null)]])]]

/-- Certificate that matching the literal `pat` against `t ++ id` fails
    for every `id` made of id characters: either a mismatch occurs
    inside `t`, or `pat` outlives `t` and its remainder contains a
    character outside the id class. -/
def litMustFail : List Char → List Char → Bool
  | [], _ => false
  | p :: ps, [] => !((p :: ps).all video_id_char)
  | p :: ps, c :: cs => if c = p then litMustFail ps cs else true

/-- Certificate that `pat` must-fails at every suffix of `P` (with a
    clean id-character tail appended), including the empty one. -/
def allSuffixMustFail (pat : List Char) : List Char → Bool
  | [] => litMustFail pat []
  | c :: cs => litMustFail pat ((c :: cs)) && allSuffixMustFail pat cs

/-- Certificate that a left-to-right literal scan cannot match before
    the end of `pre` when the subject continues with `matched` and then
    id characters. -/
def preFail (pat matched : List Char) : List Char → Bool
  | [] => true
  | c :: cs => litMustFail pat ((c :: cs) ++ matched) && preFail pat matched cs

/-- `preFail` for the two-alternative search. -/
def preFail2 (p1 p2 matched : List Char) : List Char → Bool
  | [] => true
  | c :: cs => litMustFail p1 ((c :: cs) ++ matched) &&
      (litMustFail p2 ((c :: cs) ++ matched) && preFail2 p1 p2 matched cs)

/- ════════════════════════════════════════════════════════════════════
   Part 5: helper lemmas about merge_comments
   ════════════════════════════════════════════════════════════════════ -/

theorem foldl_mergeStep (files : List (Option JValue)) :
    ∀ md : MergedData, files.foldl mergeStep md =
      ⟨md.total_videos + (files.map fun f => (fileContrib f).d_videos).sum,
       md.total_comments + (files.map fun f => (fileContrib f).d_comments).sum,
       md.videos ++ (files.map fun f => (fileContrib f).videos).flatten,
       md.all_comments ++ (files.map fun f => (fileContrib f).comments).flatten⟩ := by
  induction files with
  | nil => intro md; simp
  | cons f fs ih =>
      intro md
      simp only [List.foldl_cons, List.map_cons, List.sum_cons, List.flatten_cons]
      rw [ih]
      simp [mergeStep, Nat.add_assoc, List.append_assoc]

theorem merge_comments_eq (files : List (Option JValue)) :
    merge_comments files =
      ⟨(files.map fun f => (fileContrib f).d_videos).sum,
       (files.map fun f => (fileContrib f).d_comments).sum,
       (files.map fun f => (fileContrib f).videos).flatten,
       (files.map fun f => (fileContrib f).comments).flatten⟩ := by
  simpa [merge_comments, emptyMerged] using foldl_mergeStep files emptyMerged

theorem mem_processReplies {video_id video_title : JValue} {rl : List JValue}
    {rec : FlatComment} (h : rec ∈ (processReplies video_id video_title rl).1) :
    ∃ rf, JValue.obj rf ∈ rl ∧ rec = mkReplyComment rf video_id video_title := by
  induction rl with
  | nil => simp [processReplies] at h
  | cons r rest ih =>
      cases r with
      | obj rf =>
          simp only [processReplies] at h
          rcases List.mem_cons.mp h with h | h
          · exact ⟨rf, List.mem_cons_self _ _, h⟩
          · obtain ⟨rf2, hmem, heq⟩ := ih h
            exact ⟨rf2, List.mem_cons_of_mem _ hmem, heq⟩
      | null => simp [processReplies] at h
      | bool b => simp [processReplies] at h
      | num n => simp [processReplies] at h
      | str s => simp [processReplies] at h
      | arr l => simp [processReplies] at h

theorem mem_processComments {vif : List (String × JValue)} {cl : List JValue}
    {rec : FlatComment} (h : rec ∈ (processComments vif cl).1) :
    (∃ cf, JValue.obj cf ∈ cl ∧
        rec = mkMainComment cf (lookupD vif "video_id" (.str ""))
          (lookupD vif "title" (.str ""))) ∨
    (∃ cf rlist rf, JValue.obj cf ∈ cl ∧
        pyIter (lookupD cf "replies" (.arr [])) = some rlist ∧ JValue.obj rf ∈ rlist ∧
        rec = mkReplyComment rf (lookupD vif "video_id" (.str ""))
          (lookupD vif "title" (.str ""))) := by
  induction cl with
  | nil => simp [processComments] at h
  | cons c rest ih =>
      cases c with
      | obj cf =>
          cases hit : pyIter (lookupD cf "replies" (.arr [])) with
          | none =>
              simp only [processComments, hit] at h
              rcases List.mem_cons.mp h with h | h
              · exact Or.inl ⟨cf, List.mem_cons_self _ _, h⟩
              · simp at h
          | some rlist =>
              cases hr : (processReplies (lookupD vif "video_id" (.str ""))
                  (lookupD vif "title" (.str "")) rlist).2 with
              | true =>
                  simp only [processComments, hit, hr, if_true] at h
                  rcases List.mem_cons.mp h with h | h
                  · exact Or.inl ⟨cf, List.mem_cons_self _ _, h⟩
                  · rcases List.mem_append.mp h with h | h
                    · obtain ⟨rf, hmem, heq⟩ := mem_processReplies h
                      exact Or.inr ⟨cf, rlist, rf, List.mem_cons_self _ _, hit, hmem, heq⟩
                    · rcases ih h with ⟨cf2, hm, he⟩ | ⟨cf2, rl2, rf2, hm, hi, hm2, he⟩
                      · exact Or.inl ⟨cf2, List.mem_cons_of_mem _ hm, he⟩
                      · exact Or.inr ⟨cf2, rl2, rf2, List.mem_cons_of_mem _ hm, hi, hm2, he⟩
              | false =>
                  simp only [processComments, hit, hr, if_false] at h
                  rcases List.mem_cons.mp h with h | h
                  · exact Or.inl ⟨cf, List.mem_cons_self _ _, h⟩
                  · obtain ⟨rf, hmem, heq⟩ := mem_processReplies h
                    exact Or.inr ⟨cf, rlist, rf, List.mem_cons_self _ _, hit, hmem, heq⟩
      | null => simp [processComments] at h
      | bool b => simp [processComments] at h
      | num n => simp [processComments] at h
      | str s => simp [processComments] at h
      | arr l => simp [processComments] at h

theorem mem_processFile {data : JValue} {rec : FlatComment}
    (h : rec ∈ (processFile data).comments) :
    ∃ df vif clist,
      data = JValue.obj df ∧
      lookupD df "video_info" (.obj []) = .obj vif ∧
      pyIter (lookupD df "comments" (.arr [])) = some clist ∧
      rec ∈ (processComments vif clist).1 := by
  cases data with
  | obj df =>
      refine ⟨df, ?_⟩
      cases hl : pyLen (lookupD df "comments" (.arr [])) with
      | none => simp [processFile, hl, emptyFileResult] at h
      | some n =>
          cases hvi : lookupD df "video_info" (.obj []) with
          | obj vif =>
              cases hci : pyIter (lookupD df "comments" (.arr [])) with
              | none =>
                  exfalso
                  simp only [processFile, hl, hvi, hci, mkVideoEntry] at h
                  simp at h
              | some clist =>
                  refine ⟨vif, clist, rfl, rfl, rfl, ?_⟩
                  simp only [processFile, hl, hvi, hci, mkVideoEntry] at h
                  rcases hr : (processComments vif clist).2 with _ | _ <;>
                    simp only [hr, if_false, if_true] at h <;> exact h
          | null => simp [processFile, hl, hvi, mkVideoEntry, emptyFileResult] at h
          | bool b => simp [processFile, hl, hvi, mkVideoEntry, emptyFileResult] at h
          | num m => simp [processFile, hl, hvi, mkVideoEntry, emptyFileResult] at h
          | str s => simp [processFile, hl, hvi, mkVideoEntry, emptyFileResult] at h
          | arr l => simp [processFile, hl, hvi, mkVideoEntry, emptyFileResult] at h
  | null => simp [processFile, emptyFileResult] at h
  | bool b => simp [processFile, emptyFileResult] at h
  | num n => simp [processFile, emptyFileResult] at h
  | str s => simp [processFile, emptyFileResult] at h
  | arr l => simp [processFile, emptyFileResult] at h

theorem mem_merge_all_comments {files : List (Option JValue)} {rec : FlatComment}
    (h : rec ∈ (merge_comments files).all_comments) :
    ∃ f ∈ files, rec ∈ (fileContrib f).comments := by
  rw [merge_comments_eq] at h
  simp only [List.mem_flatten, List.mem_map] at h
  obtain ⟨l, ⟨f, hf, rfl⟩, hrec⟩ := h
  exact ⟨f, hf, hrec⟩

/-- Provenance of a record of the merged output: it is either a main
    record (reply flag false, null parent) or a reply record built by
    `mkReplyComment` from a reply dict reachable in one of the input
    files. -/
theorem merge_record_provenance {files : List (Option JValue)} {rec : FlatComment}
    (h : rec ∈ (merge_comments files).all_comments) :
    (rec.is_reply = false ∧ rec.parent_id = JValue.null) ∨
    (∃ df vif clist cf rlist rf,
        some (JValue.obj df) ∈ files ∧
        lookupD df "video_info" (.obj []) = .obj vif ∧
        pyIter (lookupD df "comments" (.arr [])) = some clist ∧
        JValue.obj cf ∈ clist ∧
        pyIter (lookupD cf "replies" (.arr [])) = some rlist ∧
        JValue.obj rf ∈ rlist ∧
        rec = mkReplyComment rf (lookupD vif "video_id" (.str ""))
          (lookupD vif "title" (.str ""))) := by
  obtain ⟨f, hf, hrec⟩ := mem_merge_all_comments h
  cases f with
  | none => simp [fileContrib, emptyFileResult] at hrec
  | some data =>
      simp only [fileContrib] at hrec
      obtain ⟨df, vif, clist, rfl, hvi, hci, hmem⟩ := mem_processFile hrec
      rcases mem_processComments hmem with ⟨cf, _, rfl⟩ | ⟨cf, rlist, rf, hcf, hrl, hrf, rfl⟩
      · exact Or.inl ⟨rfl, rfl⟩
      · exact Or.inr ⟨df, vif, clist, cf, rlist, rf, hf, hvi, hci, hcf, hrl, hrf, rfl⟩

theorem processReplies_is_reply {video_id video_title : JValue} {rl : List JValue}
    {rec : FlatComment} (h : rec ∈ (processReplies video_id video_title rl).1) :
    rec.is_reply = true := by
  obtain ⟨rf, _, rfl⟩ := mem_processReplies h
  rfl

theorem countP_processReplies (video_id video_title : JValue) (rl : List JValue) :
    ((processReplies video_id video_title rl).1.countP fun r => !r.is_reply) = 0 := by
  refine List.countP_eq_zero.mpr ?_
  intro rec hrec
  simp [processReplies_is_reply hrec]

theorem processComments_ok_count {vif : List (String × JValue)} {cl : List JValue}
    (h : (processComments vif cl).2 = true) :
    ((processComments vif cl).1.countP fun r => !r.is_reply) = cl.length := by
  induction cl with
  | nil => simp [processComments]
  | cons c rest ih =>
      cases c with
      | obj cf =>
          cases hit : pyIter (lookupD cf "replies" (.arr [])) with
          | none => simp [processComments, hit] at h
          | some rlist =>
              cases hr : (processReplies (lookupD vif "video_id" (.str ""))
                  (lookupD vif "title" (.str "")) rlist).2 with
              | false => simp [processComments, hit, hr] at h
              | true =>
                  simp only [processComments, hit, hr, if_true] at h ⊢
                  rw [List.countP_append, List.countP_cons]
                  rw [countP_processReplies, ih h]
                  simp [mkMainComment, List.length_cons, Nat.add_comm]
      | null => simp [processComments] at h
      | bool b => simp [processComments] at h
      | num n => simp [processComments] at h
      | str s => simp [processComments] at h
      | arr l => simp [processComments] at h

theorem pyLen_pyIter_length {v : JValue} {n : Nat} {l : List JValue}
    (hn : pyLen v = some n) (hl : pyIter v = some l) : n = l.length := by
  cases v with
  | arr elems =>
      simp only [pyLen, Option.some.injEq] at hn
      simp only [pyIter, Option.some.injEq] at hl
      subst hn; subst hl; rfl
  | str s =>
      cases s with
      | mk chars =>
          simp only [pyLen, String.length, Option.some.injEq] at hn
          simp only [pyIter, Option.some.injEq] at hl
          subst hn; subst hl; simp
  | obj fields =>
      simp only [pyLen, Option.some.injEq] at hn
      simp only [pyIter, Option.some.injEq] at hl
      subst hn; subst hl; simp
  | null => simp [pyLen] at hn
  | bool b => simp [pyLen] at hn
  | num m => simp [pyLen] at hn

theorem processFile_ok_count {data : JValue} (h : (processFile data).ok = true) :
    ((processFile data).comments.countP fun r => !r.is_reply) =
      (processFile data).d_comments := by
  cases data with
  | obj df =>
      cases hl : pyLen (lookupD df "comments" (.arr [])) with
      | none => simp [processFile, hl, emptyFileResult] at h
      | some n =>
          cases hvi : lookupD df "video_info" (.obj []) with
          | obj vif =>
              cases hci : pyIter (lookupD df "comments" (.arr [])) with
              | none => simp [processFile, hl, hvi, hci, mkVideoEntry] at h
              | some clist =>
                  cases hr : (processComments vif clist).2 with
                  | false => simp [processFile, hl, hvi, hci, mkVideoEntry, hr] at h
                  | true =>
                      simp only [processFile, hl, hvi, hci, mkVideoEntry, hr, if_true]
                      rw [processComments_ok_count hr]
                      exact (pyLen_pyIter_length hl hci).symm
          | null => simp [processFile, hl, hvi, mkVideoEntry, emptyFileResult] at h
          | bool b => simp [processFile, hl, hvi, mkVideoEntry, emptyFileResult] at h
          | num m => simp [processFile, hl, hvi, mkVideoEntry, emptyFileResult] at h
          | str s => simp [processFile, hl, hvi, mkVideoEntry, emptyFileResult] at h
          | arr l => simp [processFile, hl, hvi, mkVideoEntry, emptyFileResult] at h
  | null => simp [processFile, emptyFileResult] at h
  | bool b => simp [processFile, emptyFileResult] at h
  | num n => simp [processFile, emptyFileResult] at h
  | str s => simp [processFile, emptyFileResult] at h
  | arr l => simp [processFile, emptyFileResult] at h

theorem processFile_not_ok {data : JValue} (h : (processFile data).ok = false) :
    (processFile data).d_videos = 0 ∧ (processFile data).d_comments = 0 := by
  cases data with
  | obj df =>
      cases hl : pyLen (lookupD df "comments" (.arr [])) with
      | none => simp [processFile, hl, emptyFileResult]
      | some n =>
          cases hvi : lookupD df "video_info" (.obj []) with
          | obj vif =>
              cases hci : pyIter (lookupD df "comments" (.arr [])) with
              | none => simp [processFile, hl, hvi, hci, mkVideoEntry]
              | some clist =>
                  cases hr : (processComments vif clist).2 with
                  | false => simp [processFile, hl, hvi, hci, mkVideoEntry, hr]
                  | true => simp [processFile, hl, hvi, hci, mkVideoEntry, hr] at h
          | null => simp [processFile, hl, hvi, mkVideoEntry, emptyFileResult]
          | bool b => simp [processFile, hl, hvi, mkVideoEntry, emptyFileResult]
          | num m => simp [processFile, hl, hvi, mkVideoEntry, emptyFileResult]
          | str s => simp [processFile, hl, hvi, mkVideoEntry, emptyFileResult]
          | arr l => simp [processFile, hl, hvi, mkVideoEntry, emptyFileResult]
  | null => simp [processFile, emptyFileResult]
  | bool b => simp [processFile, emptyFileResult]
  | num n => simp [processFile, emptyFileResult]
  | str s => simp [processFile, emptyFileResult]
  | arr l => simp [processFile, emptyFileResult]

/- ════════════════════════════════════════════════════════════════════
   Part 6: claims about merge_comments (C1, C3, C5, C6, C10)
   ════════════════════════════════════════════════════════════════════ -/

theorem sum_d_comments_eq_countP : ∀ files : List (Option JValue),
    (∀ v : JValue, some v ∈ files → (processFile v).ok = true) →
    (files.map fun f => (fileContrib f).d_comments).sum =
      ((files.map fun f => (fileContrib f).comments).flatten.countP fun r => !r.is_reply) := by
  intro files
  induction files with
  | nil => intro _; rfl
  | cons f fs ih =>
      intro hok
      simp only [List.map_cons, List.sum_cons, List.flatten_cons, List.countP_append]
      rw [ih fun v hv => hok v (List.mem_cons_of_mem _ hv)]
      congr 1
      cases f with
      | none => rfl
      | some v => exact (processFile_ok_count (hok v (List.mem_cons_self _ _))).symm

/-- C1 (counterexample): for a single input file containing one
    top-level comment with one reply, the written `total_comments` is 1
    while `all_comments` has length 2, so the claimed equality
    `total_comments = len(all_comments)` fails as soon as a top-level
    comment carries a non-empty reply list: line 112 adds only
    `len(comments)` (the top-level count) while lines 90 and 109 append
    both the main and the reply records. -/
theorem C1_counterexample :
    (merge_comments [some replyFile]).total_comments = 1 ∧
    (merge_comments [some replyFile]).all_comments.length = 2 := ⟨rfl, rfl⟩

/-- C1 (amended): after a merge run over input files each of which
    parses and processes without an exception, `total_comments` equals
    the number of records of `all_comments` whose reply flag is false
    (the top-level records) — it equals the length of `all_comments`
    only when no reply records were emitted. -/
theorem C1_total_comments_amended (files : List (Option JValue))
    (hok : ∀ v : JValue, some v ∈ files → (processFile v).ok = true) :
    (merge_comments files).total_comments =
      ((merge_comments files).all_comments.countP fun r => !r.is_reply) := by
  rw [merge_comments_eq]
  exact sum_d_comments_eq_countP files hok

/-- Witness for C1: the amended claim evaluated on the concrete
    one-comment-one-reply file. -/
theorem C1_witness :
    (merge_comments [some replyFile]).total_comments =
      ((merge_comments [some replyFile]).all_comments.countP fun r => !r.is_reply) :=
  C1_total_comments_amended [some replyFile] (fun v hv => by
    simp only [List.mem_singleton, Option.some.injEq] at hv
    subst hv; rfl)

/-- C3 (counterexample): a structurally malformed file (its `comments`
    list contains a number, so `comment.get` raises) still contributes
    an entry to the `videos` list, because the video entry is appended
    at line 69 before the comment loop runs; only the counters stay
    untouched. -/
theorem C3_counterexample :
    (merge_comments [some malformedFile]).videos.length = 1 ∧
    (merge_comments [some malformedFile]).total_videos = 0 ∧
    (merge_comments [some malformedFile]).all_comments.length = 0 ∧
    (processFile malformedFile).ok = false := ⟨rfl, rfl, rfl, rfl⟩

/-- C3 (amended): a file whose `json.load` fails contributes nothing at
    all — the merge result is the same as without it; a parsed file on
    which processing raises leaves `total_videos` and `total_comments`
    unchanged, and in every case the records accumulated from the files
    before it are preserved as a prefix (the failing file may still
    leave a video entry and some comment records behind). -/
theorem C3_skip_amended :
    (∀ l1 l2 : List (Option JValue),
        merge_comments (l1 ++ none :: l2) = merge_comments (l1 ++ l2)) ∧
    (∀ (l1 : List (Option JValue)) (v : JValue) (l2 : List (Option JValue)),
        (processFile v).ok = false →
        (merge_comments (l1 ++ some v :: l2)).total_videos =
            (merge_comments (l1 ++ l2)).total_videos ∧
        (merge_comments (l1 ++ some v :: l2)).total_comments =
            (merge_comments (l1 ++ l2)).total_comments ∧
        (∃ t, (merge_comments (l1 ++ some v :: l2)).all_comments =
            (merge_comments l1).all_comments ++ t) ∧
        (∃ t, (merge_comments (l1 ++ some v :: l2)).videos =
            (merge_comments l1).videos ++ t)) := by
  constructor
  · intro l1 l2
    simp only [merge_comments_eq]
    simp [fileContrib, emptyFileResult]
  · intro l1 v l2 hnok
    obtain ⟨hdv, hdc⟩ := processFile_not_ok hnok
    simp only [merge_comments_eq]
    refine ⟨?_, ?_, ⟨?_, ?_⟩, ⟨?_, ?_⟩⟩
    · simp [fileContrib, hdv]
    · simp [fileContrib, hdc]
    · exact (processFile v).comments ++
        ((l2.map fun f => (fileContrib f).comments).flatten)
    · simp [fileContrib]
    · exact (processFile v).videos ++
        ((l2.map fun f => (fileContrib f).videos).flatten)
    · simp [fileContrib]

/-- Witness for C3: merging a good file followed by the malformed file
    leaves both counters as if the malformed file were absent. -/
theorem C3_witness :
    (merge_comments [some replyFile, some malformedFile]).total_videos =
      (merge_comments [some replyFile]).total_videos ∧
    (merge_comments [some replyFile, some malformedFile]).total_comments =
      (merge_comments [some replyFile]).total_comments :=
  ⟨(C3_skip_amended.2 [some replyFile] malformedFile [] rfl).1,
   (C3_skip_amended.2 [some replyFile] malformedFile [] rfl).2.1⟩

/-- C5: merging two fetch-output files with 3 and 2 top-level comments,
    the second top-level comment of the first file carrying 2 replies,
    yields a flat sequence of length 3+2+2 = 7 in which each reply
    record directly follows its parent, carries reply flag true and the
    parent's id, and `total_videos = 2`. -/
theorem C5_two_file_merge (vid1 vid2 t1 t2 a b c d e r1 r2 : String) :
    ((merge_comments
        [some (mkFetchFile vid1 t1
            [mkCommentObj a [], mkCommentObj b [mkReplyObj r1 b, mkReplyObj r2 b],
             mkCommentObj c []]),
         some (mkFetchFile vid2 t2
            [mkCommentObj d [], mkCommentObj e []])]).all_comments.map
        fun rec => (rec.comment_id, rec.is_reply, rec.parent_id)) =
      [(.str a, false, .null), (.str b, false, .null), (.str r1, true, .str b),
       (.str r2, true, .str b), (.str c, false, .null), (.str d, false, .null),
       (.str e, false, .null)] ∧
    (merge_comments
        [some (mkFetchFile vid1 t1
            [mkCommentObj a [], mkCommentObj b [mkReplyObj r1 b, mkReplyObj r2 b],
             mkCommentObj c []]),
         some (mkFetchFile vid2 t2
            [mkCommentObj d [], mkCommentObj e []])]).total_videos = 2 ∧
    (merge_comments
        [some (mkFetchFile vid1 t1
            [mkCommentObj a [], mkCommentObj b [mkReplyObj r1 b, mkReplyObj r2 b],
             mkCommentObj c []]),
         some (mkFetchFile vid2 t2
            [mkCommentObj d [], mkCommentObj e []])]).all_comments.length = 7 :=
  ⟨rfl, rfl, rfl⟩

/-- C6 (counterexample): an input file whose reply dict carries an
    explicit JSON null `parent_id` produces a merged record with reply
    flag true and a null parent reference: `reply.get("parent_id", "")`
    returns the stored null, so the claimed invariant fails on this
    input set. -/
theorem C6_counterexample :
    ((merge_comments [some nullParentFile]).all_comments.map
        fun r => (r.is_reply, r.parent_id)) =
      [(false, JValue.null), (true, JValue.null)] := rfl

/-- C6 (amended): top-level records always carry reply flag false and a
    null parent; reply records always carry reply flag true and, as
    long as no reply dict of the input files stores an explicit JSON
    null under `parent_id`, a non-null parent reference (the key's
    value, defaulting to the empty string). -/
theorem C6_flags_amended :
    (∀ (files : List (Option JValue)) (rec : FlatComment),
        rec ∈ (merge_comments files).all_comments →
        rec.is_reply = false → rec.parent_id = JValue.null) ∧
    (∀ files : List (Option JValue), (∀ f ∈ files, fileParentsNonNull f = true) →
        ∀ rec ∈ (merge_comments files).all_comments,
        rec.is_reply = true → rec.parent_id ≠ JValue.null) := by
  constructor
  · intro files rec h hflag
    rcases merge_record_provenance h with ⟨_, hp⟩ |
      ⟨df, vif, clist, cf, rlist, rf, _, _, _, _, _, _, rfl⟩
    · exact hp
    · cases hflag
  · intro files hna rec h hflag
    rcases merge_record_provenance h with ⟨hf, _⟩ |
      ⟨df, vif, clist, cf, rlist, rf, hfmem, hvi, hci, hcf, hrl, hrf, rfl⟩
    · rw [hf] at hflag; cases hflag
    · have h1 := hna _ hfmem
      simp only [fileParentsNonNull, hci] at h1
      have h2 := (List.all_eq_true.mp h1) _ hcf
      simp only [commentRepliesNonNull, hrl] at h2
      have h3 := (List.all_eq_true.mp h2) _ hrf
      simp only [replyParentNonNull] at h3
      intro hnull
      have hl : lookupD rf "parent_id" (.str "") = JValue.null := hnull
      rw [hl] at h3
      simp at h3

/-- Witness for C6: the amended claim applied to the concrete
    one-comment-one-reply file, whose reply record carries parent id
    `"c1"`. -/
theorem C6_witness :
    (mkReplyComment [("comment_id", JValue.str "r1"), ("parent_id", JValue.str "c1")]
        (JValue.str "v1") (JValue.str "T")).parent_id ≠ JValue.null :=
  C6_flags_amended.2 [some replyFile]
    (fun f hf => by
      simp only [List.mem_singleton] at hf
      subst hf; rfl)
    _ (List.Mem.tail _ (List.Mem.head _)) rfl

/-- C10: every reply record of the merged output carries
    `reply_count = 0` regardless of the input reply dict, while a main
    record carries the input comment's `reply_count` value (default 0)
    through, with reply flag false. -/
theorem C10_reply_count :
    (∀ (files : List (Option JValue)) (rec : FlatComment),
        rec ∈ (merge_comments files).all_comments →
        rec.is_reply = true → rec.reply_count = JValue.num 0) ∧
    (∀ (cf : List (String × JValue)) (vid vt : JValue),
        (mkMainComment cf vid vt).reply_count = lookupD cf "reply_count" (.num 0) ∧
        (mkMainComment cf vid vt).is_reply = false) := by
  constructor
  · intro files rec h hflag
    rcases merge_record_provenance h with ⟨hf, _⟩ |
      ⟨df, vif, clist, cf, rlist, rf, _, _, _, _, _, _, rfl⟩
    · rw [hf] at hflag; cases hflag
    · rfl
  · intro cf vid vt; exact ⟨rfl, rfl⟩

/-- Witness for C10: evaluated on the concrete one-comment-one-reply
    file; its reply record (input `reply_count` absent) has
    `reply_count = 0`. -/
theorem C10_witness :
    (mkReplyComment [("comment_id", JValue.str "r1"), ("parent_id", JValue.str "c1")]
        (JValue.str "v1") (JValue.str "T")).reply_count = JValue.num 0 :=
  C10_reply_count.1 [some replyFile] _ (List.Mem.tail _ (List.Mem.head _)) rfl

/- ════════════════════════════════════════════════════════════════════
   Part 7: helper lemmas about get_comments
   ════════════════════════════════════════════════════════════════════ -/

theorem getCommentsGo_counter (provider : Provider) (max_results : Nat) :
    ∀ (fuel : Nat) (acc : List CommentData) (tok : Option Nat) (fetched reqs : Nat),
      fetched = acc.length →
      (getCommentsGo provider max_results fuel acc tok fetched reqs).map
          (fun r => r.total_fetched) =
        (getCommentsGo provider max_results fuel acc tok fetched reqs).map
          (fun r => r.all_comments.length) := by
  intro fuel
  induction fuel with
  | zero =>
      intro acc tok fetched reqs h
      rw [getCommentsGo]
      by_cases hlt : fetched < max_results
      · rw [if_pos hlt]; simp [Except.map, h]
      · rw [if_neg hlt]; simp [Except.map, h]
  | succ n ih =>
      intro acc tok fetched reqs h
      rw [getCommentsGo]
      by_cases hlt : fetched < max_results
      · rw [if_pos hlt]
        cases hp : provider tok (min 100 (max_results - fetched)) with
        | error e =>
            simp only [hp]
            cases hhe : handleFetchError e with
            | true => simp [hhe, Except.map, h]
            | false => simp [hhe, Except.map]
        | ok page =>
            simp only [hp]
            cases ht : page.nextPageToken with
            | none =>
                simp only [ht]
                simp [Except.map, h]
            | some t =>
                simp only [ht]
                exact ih _ _ _ _ (by simp [h])
      · rw [if_neg hlt]; simp [Except.map, h]

theorem getCommentsGo_done (provider : Provider) (max_results fuel : Nat)
    (acc : List CommentData) (tok : Option Nat) (fetched reqs : Nat)
    (h : ¬ fetched < max_results) :
    getCommentsGo provider max_results fuel acc tok fetched reqs =
      .ok ⟨acc, reqs, fetched⟩ := by
  cases fuel with
  | zero => rw [getCommentsGo, if_neg h]
  | succ n => rw [getCommentsGo, if_neg h]

theorem getCommentsGo_serving (stream : Nat → CommentThreadItem) (m : Nat) :
    ∀ (fuel : Nat) (tok : Option Nat) (fetched : Nat) (acc : List CommentData) (reqs : Nat),
      tokenStart tok = fetched → fetched < m → (m - fetched + 99) / 100 ≤ fuel →
      getCommentsGo (servingProvider stream) m fuel acc tok fetched reqs =
        .ok ⟨acc ++ (List.range' fetched (m - fetched)).map
              fun i => mapCommentItem (stream i),
            reqs + (m - fetched + 99) / 100, m⟩ := by
  intro fuel
  induction fuel with
  | zero =>
      intro tok fetched acc reqs htok hlt hfuel
      exfalso; omega
  | succ n ih =>
      intro tok fetched acc reqs htok hlt hfuel
      rw [getCommentsGo, if_pos hlt]
      by_cases hbig : m - fetched ≤ 100
      · have hreq : min 100 (m - fetched) = m - fetched := by omega
        have hserve : servingProvider stream tok (min 100 (m - fetched)) =
            .ok ⟨(List.range (m - fetched)).map fun i => stream (fetched + i),
                 some (fetched + (m - fetched))⟩ := by
          simp [servingProvider, htok, hreq]
        simp only [hserve, List.length_map, List.length_range]
        rw [getCommentsGo_done _ _ _ _ _ _ _ (by omega)]
        refine congrArg Except.ok ?_
        congr 1
        · simp [List.map_map, List.range'_eq_map_range, Function.comp]
        · omega
        · omega
      · have hreq : min 100 (m - fetched) = 100 := by omega
        have hserve : servingProvider stream tok (min 100 (m - fetched)) =
            .ok ⟨(List.range 100).map fun i => stream (fetched + i),
                 some (fetched + 100)⟩ := by
          simp [servingProvider, htok, hreq]
        simp only [hserve, List.length_map, List.length_range]
        rw [ih (some (fetched + 100)) (fetched + 100) _ _ rfl (by omega) (by omega)]
        refine congrArg Except.ok ?_
        congr 1
        · have h1 : ((List.range 100).map fun i => stream (fetched + i)).map mapCommentItem
              = (List.range' fetched 100).map fun i => mapCommentItem (stream i) := by
            simp [List.map_map, List.range'_eq_map_range, Function.comp]
          rw [List.append_assoc, h1, ← List.map_append]
          have h2 := List.range'_append fetched 100 (m - (fetched + 100)) 1
          simp only [one_mul] at h2
          rw [h2]
          have h3 : m - (fetched + 100) + 100 = m - fetched := by omega
          rw [h3]
        · omega

theorem pagesConcat_succ (pages : Nat → List CommentThreadItem) (p k : Nat) :
    pagesConcat pages p (k + 1) = pages p ++ pagesConcat pages (p + 1) k := by
  show (((p :: List.range' (p + 1) k).map pages).flatten) = _
  rw [List.map_cons, List.flatten_cons]
  rfl

theorem getCommentsGo_failing (pages : Nat → List CommentThreadItem) (n m : Nat)
    (e : FetchError) (he : handleFetchError e = true) :
    ∀ (fuel p : Nat) (tok : Option Nat) (acc : List CommentData) (fetched reqs : Nat),
      pageOf tok = p → 1 ≤ p → p ≤ n →
      fetched + (pagesConcat pages p (n - p)).length < m →
      n - p < fuel →
      getCommentsGo (failingProvider pages n e) m fuel acc tok fetched reqs =
        .ok ⟨acc ++ (pagesConcat pages p (n - p)).map mapCommentItem,
            reqs + (n - p) + 1, fetched + (pagesConcat pages p (n - p)).length⟩ := by
  intro fuel
  induction fuel with
  | zero =>
      intro p tok acc fetched reqs htok hp1 hpn hcap hfuel
      exfalso; omega
  | succ k ih =>
      intro p tok acc fetched reqs htok hp1 hpn hcap hfuel
      have hlt : fetched < m := by omega
      rw [getCommentsGo, if_pos hlt]
      by_cases hpltn : p < n
      · have hserve : failingProvider pages n e tok (min 100 (m - fetched)) =
            .ok ⟨pages p, some (p + 1)⟩ := by
          simp [failingProvider, htok, hpltn]
        simp only [hserve]
        have hsub : n - p = (n - (p + 1)) + 1 := by omega
        have hconcat : pagesConcat pages p (n - p) =
            pages p ++ pagesConcat pages (p + 1) (n - (p + 1)) := by
          rw [hsub, pagesConcat_succ]
        have hcap2 : (fetched + (pages p).length) +
            (pagesConcat pages (p + 1) (n - (p + 1))).length < m := by
          rw [hconcat, List.length_append] at hcap
          omega
        rw [ih (p + 1) (some (p + 1)) _ _ _ rfl (by omega) (by omega) hcap2 (by omega)]
        refine congrArg Except.ok ?_
        congr 1
        · rw [hconcat, List.map_append, List.append_assoc]
        · omega
        · rw [hconcat, List.length_append]
          omega
      · have hserve : failingProvider pages n e tok (min 100 (m - fetched)) =
            .error e := by
          simp [failingProvider, htok, hpltn]
        simp only [hserve, he, if_true]
        have hnp : n - p = 0 := by omega
        rw [hnp]
        simp [pagesConcat]

/- ════════════════════════════════════════════════════════════════════
   Part 8: claims about get_comments (C2, C4, C7, C9)
   ════════════════════════════════════════════════════════════════════ -/

/-- C2 (counterexample): a provider that returns k = 2 pages of n = 100
    items each (200 > 150 = cap) but ignores the smaller second-page
    request yields 200 records, not the claimed exactly-150: the item
    loop of lines 156-187 appends every returned item with no
    truncation at the cap.  The request count 2 = ceil(150/100) does
    hold. -/
theorem C2_counterexample :
    (get_comments fixedPageProvider 150 5).map (fun r => r.all_comments.length) =
      .ok 200 ∧
    (get_comments fixedPageProvider 150 5).map (fun r => r.all_comments.length) ≠
      .ok 150 ∧
    (get_comments fixedPageProvider 150 5).map (fun r => r.requests) = .ok 2 := by
  refine ⟨rfl, ?_, rfl⟩
  intro hcontra
  have h200 : (get_comments fixedPageProvider 150 5).map
      (fun r => r.all_comments.length) = .ok 200 := rfl
  rw [h200] at hcontra
  exact absurd (Except.ok.inj hcontra) (by decide)

/-- C2 (amended): for every provider that serves exactly the requested
    number of items on each page (with a continuation token always
    present), `get_comments` completes without raising and returns
    exactly `max_results` top-level records, appended in page order
    then item order (the stream order), in exactly
    `ceil(max_results / 100)` page requests. -/
theorem C2_request_honoring_amended (stream : Nat → CommentThreadItem) (m fuel : Nat)
    (hfuel : (m + 99) / 100 ≤ fuel) :
    get_comments (servingProvider stream) m fuel =
      .ok ⟨(List.range' 0 m).map fun i => mapCommentItem (stream i),
          (m + 99) / 100, m⟩ := by
  cases Nat.eq_zero_or_pos m with
  | inl h0 =>
      subst h0
      rw [get_comments, getCommentsGo_done _ _ _ _ _ _ _ (by omega)]
      rfl
  | inr hpos =>
      have h := getCommentsGo_serving stream m fuel none 0 [] 0 rfl hpos
        (by simpa using hfuel)
      rw [get_comments, h]
      simp

/-- Witness for C2: a request-honoring provider with cap 150 yields
    exactly 150 records in 2 = ceil(150/100) requests. -/
theorem C2_witness :
    (150 + 99) / 100 ≤ 2 ∧
    get_comments (servingProvider fun _ => sampleItem) 150 2 =
      .ok ⟨(List.range' 0 150).map fun i => mapCommentItem ((fun _ => sampleItem) i),
          (150 + 99) / 100, 150⟩ :=
  ⟨by decide, C2_request_honoring_amended (fun _ => sampleItem) 150 2 (by decide)⟩

/-- C4 (counterexample): a 403 on the request for page 2 whose response
    body is not JSON makes `get_comments` raise instead of returning
    page 1's records: the handler itself evaluates
    `e.response.json()` at line 198, which raises, and an exception
    raised inside an `except` clause escapes the surrounding loop — so
    the claimed unconditional no-raise guarantee fails. -/
theorem C4_counterexample :
    get_comments badBodyProvider 10 5 = .error () ∧
    handleFetchError (.httpStatus 403 none) = false := ⟨rfl, rfl⟩

/-- C4 (amended): when the provider serves pages 1 .. n-1 (totalling
    fewer than `max_results` items, each with a continuation token) and
    the request for page n (n ≥ 2) raises an exception on which the
    handlers of lines 196-210 complete — any non-HTTP exception, a
    non-403 HTTP error, or a 403 whose JSON body is a dict whose
    `"error"` value (if present) is a dict — `get_comments` does not
    raise: it returns exactly the records of pages 1 through n-1 in
    order, having issued exactly n requests, and pagination stops
    permanently at the failure.  A 403 whose body is not such a JSON
    dict makes the handler itself raise and the records are lost. -/
theorem C4_handled_error_amended (pages : Nat → List CommentThreadItem)
    (n m fuel : Nat) (e : FetchError) (hn : 2 ≤ n)
    (he : handleFetchError e = true)
    (hcap : (pagesConcat pages 1 (n - 1)).length < m)
    (hfuel : n ≤ fuel) :
    get_comments (failingProvider pages n e) m fuel =
      .ok ⟨(pagesConcat pages 1 (n - 1)).map mapCommentItem, n,
          (pagesConcat pages 1 (n - 1)).length⟩ := by
  have h := getCommentsGo_failing pages n m e he fuel 1 none [] 0 0 rfl (le_refl 1)
    (by omega) (by simpa using hcap) (by omega)
  rw [get_comments, h]
  have h2 : n - 1 + 1 = n := by omega
  simp [h2]

/-- Witness for C4: a 403 with a well-formed JSON error body on page 2
    after a one-item page 1. -/
theorem C4_witness :
    get_comments (failingProvider (fun _ => [sampleItem]) 2 wellFormed403) 10 5 =
      .ok ⟨(pagesConcat (fun _ => [sampleItem]) 1 1).map mapCommentItem, 2,
          (pagesConcat (fun _ => [sampleItem]) 1 1).length⟩ :=
  C4_handled_error_amended (fun _ => [sampleItem]) 2 10 5 wellFormed403
    (by decide) (by decide) (by decide) (by decide)

/-- C7: when the provider omits the continuation token in the page-2
    response, `get_comments` issues exactly 2 requests (none for page
    3) and returns the records of pages 1 and 2, even when fewer than
    `max_results` records were retrieved (lines 190-192 break on a
    missing token). -/
theorem C7_token_omitted (items1 items2 : List CommentThreadItem) (m fuel : Nat)
    (h1 : items1.length < m) (hfuel : 2 ≤ fuel) :
    get_comments (tokenEndProvider items1 items2) m fuel =
      .ok ⟨(items1 ++ items2).map mapCommentItem, 2,
          items1.length + items2.length⟩ := by
  obtain ⟨k, rfl⟩ : ∃ k, fuel = k + 1 + 1 := ⟨fuel - 2, by omega⟩
  rw [get_comments]
  rw [getCommentsGo, if_pos (by omega)]
  have hs1 : tokenEndProvider items1 items2 none (min 100 (m - 0)) =
      .ok ⟨items1, some 2⟩ := rfl
  simp only [hs1]
  rw [getCommentsGo, if_pos (by simpa using h1)]
  have hs2 : tokenEndProvider items1 items2 (some 2)
      (min 100 (m - (0 + items1.length))) = .ok ⟨items2, none⟩ := rfl
  simp only [hs2]
  simp [List.map_append]

/-- Witness for C7: one item on page 1, one on page 2, cap 10: both
    pages are returned (2 < 10) and exactly 2 requests are made. -/
theorem C7_witness :
    get_comments (tokenEndProvider [sampleItem] [sampleItem]) 10 5 =
      .ok ⟨([sampleItem] ++ [sampleItem]).map mapCommentItem, 2,
          List.length [sampleItem] + List.length [sampleItem]⟩ :=
  C7_token_omitted [sampleItem] [sampleItem] 10 5 (by decide) (by decide)

/-- C9: the `total_fetched` counter compared against `max_results`
    counts exactly the top-level records (`+= 1` per item at line 187,
    never for inline replies) in every run, completed or raising, so
    the number of records counting nested replies can exceed the cap
    while the top-level count is what the cap bounds: with a provider
    serving 2 items of 3 replies each under cap 2, the run returns 2
    top-level records carrying 8 records in total. -/
theorem C9_cap_counts_top_level :
    (∀ (provider : Provider) (max_results fuel : Nat),
        (get_comments provider max_results fuel).map (fun r => r.total_fetched) =
          (get_comments provider max_results fuel).map
            (fun r => r.all_comments.length)) ∧
    ((get_comments replyRichProvider 2 5).map
        (fun r => (r.all_comments.length,
          (r.all_comments.map fun cd => 1 + cd.replies.length).sum)) = .ok (2, 8)) :=
  ⟨fun p m f => getCommentsGo_counter p m f [] none 0 0 rfl, rfl⟩


/- ════════════════════════════════════════════════════════════════════
   Part 9: helper lemmas about extract_video_id
   ════════════════════════════════════════════════════════════════════ -/

theorem matchLit_self_append : ∀ pat rest : List Char, matchLit pat (pat ++ rest) = some rest := by
  intro pat rest
  induction pat with
  | nil => rfl
  | cons p ps ih => rw [List.cons_append, matchLit, if_pos rfl]; exact ih

theorem matchLit_clean_none : ∀ pat s : List Char, pat.all video_id_char = false →
    (∀ c ∈ s, video_id_char c = true) → matchLit pat s = none := by
  intro pat
  induction pat with
  | nil => intro s hall _; simp at hall
  | cons p ps ih =>
      intro s hall hs
      cases s with
      | nil => rfl
      | cons c cs =>
          rw [matchLit]
          by_cases hcp : c = p
          · rw [if_pos hcp]
            subst hcp
            have hc : video_id_char c = true := hs c (List.mem_cons_self _ _)
            simp only [List.all_cons, hc, Bool.true_and] at hall
            exact ih cs hall fun d hd => hs d (List.mem_cons_of_mem _ hd)
          · rw [if_neg hcp]

theorem litMustFail_sound : ∀ pat t id : List Char, litMustFail pat t = true →
    (∀ c ∈ id, video_id_char c = true) → matchLit pat (t ++ id) = none := by
  intro pat
  induction pat with
  | nil => intro t id h _; simp [litMustFail] at h
  | cons p ps ih =>
      intro t id h hid
      cases t with
      | nil =>
          simp only [litMustFail, Bool.not_eq_true'] at h
          exact matchLit_clean_none _ _ h hid
      | cons c cs =>
          rw [List.cons_append, matchLit]
          by_cases hcp : c = p
          · rw [if_pos hcp]
            rw [litMustFail, if_pos hcp] at h
            exact ih cs id h hid
          · rw [if_neg hcp]

theorem reSearchCap_clean_none : ∀ pat s : List Char, pat.all video_id_char = false →
    (∀ c ∈ s, video_id_char c = true) → reSearchCap pat s = none := by
  intro pat s hall
  induction s with
  | nil => intro _; rfl
  | cons c cs ih =>
      intro hs
      rw [reSearchCap, matchLit_clean_none pat (c :: cs) hall hs]
      exact ih fun d hd => hs d (List.mem_cons_of_mem _ hd)

theorem reSearchCap_append_clean_none : ∀ pat P id : List Char,
    allSuffixMustFail pat P = true → (∀ c ∈ id, video_id_char c = true) →
    reSearchCap pat (P ++ id) = none := by
  intro pat P
  induction P with
  | nil =>
      intro id h hid
      cases pat with
      | nil => simp [allSuffixMustFail, litMustFail] at h
      | cons p ps =>
          simp only [allSuffixMustFail, litMustFail, Bool.not_eq_true'] at h
          exact reSearchCap_clean_none _ _ h hid
  | cons c cs ih =>
      intro id h hid
      simp only [allSuffixMustFail, Bool.and_eq_true] at h
      obtain ⟨h1, h2⟩ := h
      have hm := litMustFail_sound pat (c :: cs) id h1 hid
      rw [List.cons_append] at hm
      rw [List.cons_append, reSearchCap, hm]
      exact ih id h2 hid

theorem reSearchCap_cons_match (pat : List Char) (c : Char) (cs id : List Char)
    (hm : matchLit pat (c :: cs) = some id) (hid : ∀ x ∈ id, video_id_char x = true)
    (hne : id ≠ []) : reSearchCap pat (c :: cs) = some id := by
  rw [reSearchCap, hm]
  simp only [List.takeWhile_eq_self_iff.mpr hid]
  cases id with
  | nil => exact absurd rfl hne
  | cons x xs => rfl

theorem reSearchCap_prefix_match : ∀ pat pre id : List Char,
    preFail pat pat pre = true → id ≠ [] →
    (∀ c ∈ id, video_id_char c = true) →
    reSearchCap pat (pre ++ (pat ++ id)) = some id := by
  intro pat pre
  induction pre with
  | nil =>
      intro id _ hne hid
      rw [List.nil_append]
      cases pat with
      | nil =>
          rw [List.nil_append]
          cases id with
          | nil => exact absurd rfl hne
          | cons c cs => exact reSearchCap_cons_match [] c cs (c :: cs) rfl hid hne
      | cons p ps =>
          rw [List.cons_append]
          refine reSearchCap_cons_match (p :: ps) p (ps ++ id) id ?_ hid hne
          have := matchLit_self_append (p :: ps) id
          rwa [List.cons_append] at this
  | cons c cs ih =>
      intro id h hne hid
      simp only [preFail, Bool.and_eq_true] at h
      obtain ⟨h1, h2⟩ := h
      have hm := litMustFail_sound pat ((c :: cs) ++ pat) id h1 hid
      rw [List.append_assoc] at hm
      rw [List.cons_append] at hm ⊢
      rw [reSearchCap, hm]
      exact ih id h2 hne hid

theorem reSearchAlt_cons_match1 (p1 p2 : List Char) (c : Char) (cs id : List Char)
    (hm : matchLit p1 (c :: cs) = some id) (hid : ∀ x ∈ id, video_id_char x = true)
    (hne : id ≠ []) : reSearchAlt p1 p2 (c :: cs) = some id := by
  rw [reSearchAlt, hm]
  simp only [List.takeWhile_eq_self_iff.mpr hid]
  cases id with
  | nil => exact absurd rfl hne
  | cons x xs => rfl

theorem reSearchAlt_cons_match2 (p1 p2 : List Char) (c : Char) (cs id : List Char)
    (hm1 : matchLit p1 (c :: cs) = none) (hm2 : matchLit p2 (c :: cs) = some id)
    (hid : ∀ x ∈ id, video_id_char x = true) (hne : id ≠ []) :
    reSearchAlt p1 p2 (c :: cs) = some id := by
  rw [reSearchAlt, hm1, hm2]
  simp only [List.takeWhile_eq_self_iff.mpr hid]
  cases id with
  | nil => exact absurd rfl hne
  | cons x xs => rfl

theorem reSearchAlt_cons_none (p1 p2 : List Char) (c : Char) (cs : List Char)
    (hm1 : matchLit p1 (c :: cs) = none) (hm2 : matchLit p2 (c :: cs) = none) :
    reSearchAlt p1 p2 (c :: cs) = reSearchAlt p1 p2 cs := by
  rw [reSearchAlt, hm1, hm2]

theorem reSearchAlt_append_match1 : ∀ p1 p2 pre id : List Char,
    preFail2 p1 p2 p1 pre = true → id ≠ [] →
    (∀ c ∈ id, video_id_char c = true) →
    reSearchAlt p1 p2 (pre ++ (p1 ++ id)) = some id := by
  intro p1 p2 pre
  induction pre with
  | nil =>
      intro id _ hne hid
      rw [List.nil_append]
      cases p1 with
      | nil =>
          rw [List.nil_append]
          cases id with
          | nil => exact absurd rfl hne
          | cons c cs => exact reSearchAlt_cons_match1 [] p2 c cs (c :: cs) rfl hid hne
      | cons p ps =>
          rw [List.cons_append]
          refine reSearchAlt_cons_match1 (p :: ps) p2 p (ps ++ id) id ?_ hid hne
          have := matchLit_self_append (p :: ps) id
          rwa [List.cons_append] at this
  | cons c cs ih =>
      intro id h hne hid
      simp only [preFail2, Bool.and_eq_true] at h
      obtain ⟨h1, h2, h3⟩ := h
      have hm1 := litMustFail_sound p1 ((c :: cs) ++ p1) id h1 hid
      have hm2 := litMustFail_sound p2 ((c :: cs) ++ p1) id h2 hid
      rw [List.append_assoc, List.cons_append] at hm1 hm2
      rw [List.cons_append, reSearchAlt_cons_none p1 p2 c _ hm1 hm2]
      exact ih id h3 hne hid

theorem reSearchAlt_append_match2 : ∀ p1 p2 pre id : List Char,
    preFail2 p1 p2 p2 pre = true → litMustFail p1 p2 = true → id ≠ [] →
    (∀ c ∈ id, video_id_char c = true) →
    reSearchAlt p1 p2 (pre ++ (p2 ++ id)) = some id := by
  intro p1 p2 pre
  induction pre with
  | nil =>
      intro id _ hfirst hne hid
      rw [List.nil_append]
      have hm1 : matchLit p1 (p2 ++ id) = none := litMustFail_sound p1 p2 id hfirst hid
      cases p2 with
      | nil =>
          rw [List.nil_append] at hm1 ⊢
          cases id with
          | nil => exact absurd rfl hne
          | cons c cs => exact reSearchAlt_cons_match2 p1 [] c cs (c :: cs) hm1 rfl hid hne
      | cons p ps =>
          rw [List.cons_append] at hm1 ⊢
          refine reSearchAlt_cons_match2 p1 (p :: ps) p (ps ++ id) id hm1 ?_ hid hne
          have := matchLit_self_append (p :: ps) id
          rwa [List.cons_append] at this
  | cons c cs ih =>
      intro id h hfirst hne hid
      simp only [preFail2, Bool.and_eq_true] at h
      obtain ⟨h1, h2, h3⟩ := h
      have hm1 := litMustFail_sound p1 ((c :: cs) ++ p2) id h1 hid
      have hm2 := litMustFail_sound p2 ((c :: cs) ++ p2) id h2 hid
      rw [List.append_assoc, List.cons_append] at hm1 hm2
      rw [List.cons_append, reSearchAlt_cons_none p1 p2 c _ hm1 hm2]
      exact ih id h3 hfirst hne hid

theorem data_mk (l : List Char) : (String.mk l).data = l := rfl

/- ════════════════════════════════════════════════════════════════════
   Part 10: claims about extract_video_id (C8)
   ════════════════════════════════════════════════════════════════════ -/

/-- C8 (counterexample): a URL that matches none of the patterns but
    carries brackets in its authority that fail `urlparse`'s
    validation makes `urlparse` raise `ValueError`, which
    `extract_video_id` does not catch — it raises instead of returning
    the no-identifier signal.  This happens both for an unbalanced `[`
    and (CPython 3.11, the interpreter this unpinned repository runs
    under) for balanced brackets whose host is not a valid
    IPv6/IPvFuture literal. -/
theorem C8_counterexample :
    extract_video_id "https://[x" = .error () ∧
    extract_video_id "https://[abc]" = .error () := ⟨rfl, rfl⟩

/-- C8 (amended): for every id made of `[a-zA-Z0-9_-]` characters,
    extraction returns the embedded id for the short-link, watch-query
    and embed-path URL shapes; and for every URL on which both regex
    searches fail, on which `urlparse` succeeds (in particular its
    bracketed-host validation passes) with an all-ASCII authority, and
    whose netloc triggers neither host branch (no `youtu.be`
    substring, and either no `youtube.com` substring or no `v` query
    parameter), it returns the no-identifier signal `None` instead of
    raising.  URLs whose authority fails the bracket validation raise
    `ValueError` instead. -/
theorem C8_extract_amended :
    (∀ id : List Char, id ≠ [] → (∀ c ∈ id, video_id_char c = true) →
        extract_video_id (String.mk ("https://youtu.be/".data ++ id)) =
          .ok (some (String.mk id)) ∧
        extract_video_id (String.mk ("https://www.youtube.com/watch?v=".data ++ id)) =
          .ok (some (String.mk id)) ∧
        extract_video_id (String.mk ("https://www.youtube.com/embed/".data ++ id)) =
          .ok (some (String.mk id))) ∧
    (∀ (url : String) (parts : UrlParts),
        reSearchCap patShort url.data = none →
        reSearchAlt patWatch patEmbed url.data = none →
        urlparseModel url.data = .ok parts →
        parts.netloc.all (fun c => decide (c.toNat < 128)) = true →
        containsSub "youtu.be".data parts.netloc = false →
        (containsSub "youtube.com".data parts.netloc = false ∨
          parse_qs_v (splitAmp parts.query) = none) →
        extract_video_id url = .ok none) := by
  constructor
  · intro id hne hid
    refine ⟨?_, ?_, ?_⟩
    · have h1 : reSearchCap patShort ("https://".data ++ (patShort ++ id)) = some id :=
        reSearchCap_prefix_match patShort "https://".data id rfl hne hid
      have h2 : reSearchCap patShort ("https://youtu.be/".data ++ id) = some id := h1
      simp only [extract_video_id, data_mk, h2]
    · have h3 : reSearchCap patShort ("https://www.youtube.com/watch?v=".data ++ id) =
          none :=
        reSearchCap_append_clean_none patShort "https://www.youtube.com/watch?v=".data
          id rfl hid
      have h4 : reSearchAlt patWatch patEmbed
          ("https://www.".data ++ (patWatch ++ id)) = some id :=
        reSearchAlt_append_match1 patWatch patEmbed "https://www.".data id rfl hne hid
      have h5 : reSearchAlt patWatch patEmbed
          ("https://www.youtube.com/watch?v=".data ++ id) = some id := h4
      simp only [extract_video_id, data_mk, h3, h5]
    · have h6 : reSearchCap patShort ("https://www.youtube.com/embed/".data ++ id) =
          none :=
        reSearchCap_append_clean_none patShort "https://www.youtube.com/embed/".data
          id rfl hid
      have h7 : reSearchAlt patWatch patEmbed
          ("https://www.".data ++ (patEmbed ++ id)) = some id :=
        reSearchAlt_append_match2 patWatch patEmbed "https://www.".data id rfl rfl hne hid
      have h8 : reSearchAlt patWatch patEmbed
          ("https://www.youtube.com/embed/".data ++ id) = some id := h7
      simp only [extract_video_id, data_mk, h6, h8]
  · intro url parts hr1 hr2 hup _hascii hyb hdisj
    rcases hdisj with hyc | hqs
    · simp only [extract_video_id, hr1, hr2, hup, hyb, hyc]
      simp
    · cases hyt : containsSub "youtube.com".data parts.netloc with
      | false =>
          simp only [extract_video_id, hr1, hr2, hup, hyb, hyt]
          simp
      | true =>
          simp only [extract_video_id, hr1, hr2, hup, hyb, hyt, hqs]
          simp

/-- Witness for C8: a concrete short-link URL yields its id, and a
    concrete non-matching URL yields `None`. -/
theorem C8_witness :
    extract_video_id (String.mk ("https://youtu.be/".data ++ "JxPe3ZPjvIs".data)) =
      .ok (some (String.mk "JxPe3ZPjvIs".data)) ∧
    extract_video_id "https://example.com/a" = .ok none :=
  ⟨(C8_extract_amended.1 "JxPe3ZPjvIs".data (by decide) (by decide)).1,
   C8_extract_amended.2 "https://example.com/a" ⟨"example.com".data, "/a".data, []⟩
     rfl rfl rfl (by decide) rfl (Or.inl rfl)⟩
